import Mathlib

/-!
Shallow embedding of the parsing core of spdxSummarizer:
  * the dialect-1 tokenizer (tvFileLoader.py, class TVFileLoader),
  * the dialect-2 record assembler (parsetools.py, parseFossologySPDXReport),
  * the prefix normalizer (parsetools.py, removePrefixes) together with the
    posixpath.commonpath routine it calls,
  * the dialect-1 record assembler (absent from parsetools.py although
    mainshell.py imports it as parseSPDXReport; modelled from the spec).

Python strings are modelled as Lean `String`, with the Python string
primitives the source uses (`strip`, `find`, slicing, `split`, `startswith`,
`endswith`, `join`) re-implemented below on the underlying character list so
that every definition is executable and every proof can proceed by list
reasoning.  Machine input is a `List String` of the file's lines.
-/

/-- ASCII whitespace recognized by Python's default `str.strip()`
(the source files are ASCII, so the unicode cases never arise). -/
def isPySpace (c : Char) : Bool :=
  c == ' ' || c == '\t' || c == '\n' || c == '\r' || c == '\x0b' || c == '\x0c'

/-- Python `s.strip()`: remove whitespace from both ends. -/
def pyStrip (s : String) : String :=
  ⟨((s.data.dropWhile isPySpace).reverse.dropWhile isPySpace).reverse⟩

/-- Python slice `s[:n]`. -/
def pyTake (s : String) (n : Nat) : String := ⟨s.data.take n⟩

/-- Python slice `s[n:]`. -/
def pyDrop (s : String) (n : Nat) : String := ⟨s.data.drop n⟩

/-- Python `s.startswith(t)`. -/
def pyStartsWith (s t : String) : Bool := t.data.isPrefixOf s.data

/-- Python `s.endswith(t)`. -/
def pyEndsWith (s t : String) : Bool := t.data.isSuffixOf s.data

/-- Index of the first occurrence of character `c`, scanning from offset `i`. -/
def findCharAux (c : Char) : List Char → Nat → Option Nat
  | [], _ => none
  | x :: xs, i => if x == c then some i else findCharAux c xs (i + 1)

/-- Python `s.find(c)` for a single-character needle; `none` models -1. -/
def pyFindChar (c : Char) (s : String) : Option Nat := findCharAux c s.data 0

/-- Index of the first occurrence of `needle` as a sublist, from offset `i`. -/
def findSubAux (needle : List Char) : List Char → Nat → Option Nat
  | [], i => if needle.isEmpty then some i else none
  | x :: xs, i =>
      if needle.isPrefixOf (x :: xs) then some i else findSubAux needle xs (i + 1)

/-- Python `s.find(t)` for a substring needle; `none` models -1. -/
def pyFindSub (t s : String) : Option Nat := findSubAux t.data s.data 0

/-- Split at the first occurrence of `c`; `none` when `c` is absent. -/
def splitOnceAux (c : Char) : List Char → Option (List Char × List Char)
  | [] => none
  | x :: xs =>
      if x == c then some ([], xs)
      else (splitOnceAux c xs).map (fun p => (x :: p.1, p.2))

/-- Python `s.split(c, 1)`: `some (before, after)` at the first `c`,
`none` when the separator is absent (Python returns a one-element list). -/
def pySplit1 (s : String) (c : Char) : Option (String × String) :=
  (splitOnceAux c s.data).map (fun p => (⟨p.1⟩, ⟨p.2⟩))

/-- Full split on a separator character, Python `s.split(c)` semantics:
always returns at least one (possibly empty) piece. -/
def splitAllAux (c : Char) : List Char → List (List Char)
  | [] => [[]]
  | x :: xs =>
      if x == c then [] :: splitAllAux c xs
      else
        match splitAllAux c xs with
        | [] => [[x]]
        | h :: t => (x :: h) :: t

/-- Python `s.split(c)` as a list of strings. -/
def pySplitAll (s : String) (c : Char) : List String :=
  (splitAllAux c s.data).map (fun l => ⟨l⟩)

/-- Python `sep.join(parts)`. -/
def pyJoin (sep : String) : List String → String
  | [] => ""
  | [x] => x
  | x :: rest => x ++ sep ++ pyJoin sep rest

/-- Python string comparison `a < b` (lexicographic on code points). -/
def pyCharsLt : List Char → List Char → Bool
  | [], [] => false
  | [], _ :: _ => true
  | _ :: _, [] => false
  | a :: as, b :: bs => if a == b then pyCharsLt as bs else decide (a.toNat < b.toNat)

/-- Python comparison of two lists of strings (lexicographic, element-wise). -/
def pyListLt : List String → List String → Bool
  | [], [] => false
  | [], _ :: _ => true
  | _ :: _, [] => false
  | a :: as, b :: bs => if a == b then pyListLt as bs else pyCharsLt a.data b.data

/-! ### Dialect-1 tokenizer: tvFileLoader.py, class TVFileLoader -/

/-- tvFileLoader.py, `TVFileLoaderState`. -/
inductive TVFileLoaderState
  | READY
  | MIDTEXT
  | ERROR
deriving DecidableEq

/-- tvFileLoader.py, the mutable fields of class `TVFileLoader`. -/
structure TVFileLoader where
  loaderState : TVFileLoaderState
  tvList : List (String × String)
  currentLineNum : Nat
  currentTag : String
  currentValue : String
deriving DecidableEq

/-- The state right after construction / `TVFileLoader.reset`. -/
def initLoader : TVFileLoader :=
  { loaderState := .READY, tvList := [], currentLineNum := 0,
    currentTag := "", currentValue := "" }

/-- tvFileLoader.py, `_parseNextLineFromMidtext`. -/
def parseFromMidtext (L : TVFileLoader) (line : String) : TVFileLoader :=
  match pyFindSub "</text>" line with
  | none => { L with currentValue := L.currentValue ++ line ++ "\n" }
  | some endTagLoc =>
      { L with
        tvList := L.tvList ++ [(L.currentTag, L.currentValue ++ pyTake line endTagLoc)],
        currentTag := "", currentValue := "",
        loaderState := .READY }

/-- tvFileLoader.py, `_parseNextLineFromReady`. -/
def parseFromReady (L : TVFileLoader) (rawline : String) : TVFileLoader :=
  let line := pyStrip rawline
  if line == "" then L
  else if pyStartsWith line "#" then L
  else
    match pyFindChar ':' line with
    | none => { L with loaderState := .ERROR }
    | some colonLoc =>
        let tag := pyTake line colonLoc
        let rem := pyStrip (pyDrop line (colonLoc + 1))
        match pyFindSub "<text>" rem with
        | none =>
            { L with tvList := L.tvList ++ [(tag, rem)],
                     currentTag := "", currentValue := "", loaderState := .READY }
        | some startTagLoc =>
            let rem2 := pyDrop rem (startTagLoc + 6)
            match pyFindSub "</text>" rem2 with
            | none =>
                { L with currentTag := tag, currentValue := rem2 ++ "\n",
                         loaderState := .MIDTEXT }
            | some endTagLoc =>
                { L with tvList := L.tvList ++ [(tag, pyTake rem2 endTagLoc)],
                         currentTag := "", currentValue := "", loaderState := .READY }

/-- tvFileLoader.py, `parseNextLine` (the unknown-state branch is
unreachable: the enumeration has exactly the three states). -/
def parseNextLine (L : TVFileLoader) (line : String) : TVFileLoader :=
  let L := { L with currentLineNum := L.currentLineNum + 1 }
  match L.loaderState with
  | .ERROR => L
  | .MIDTEXT => parseFromMidtext L line
  | .READY => parseFromReady L line

/-- tvFileLoader.py, `getFinalTVList`; the pair records the returned value
(`none` is Python's `None` failure signal) and the loader afterwards. -/
def getFinalTVList (L : TVFileLoader) :
    Option (List (String × String)) × TVFileLoader :=
  match L.loaderState with
  | .READY => (some L.tvList, L)
  | .ERROR => (none, L)
  | .MIDTEXT => (none, { L with loaderState := .ERROR })

/-! ### Dialect-2 record assembler: parsetools.py, parseFossologySPDXReport -/

/-- Python exceptions that can escape the functions modelled here
(`parseFossologySPDXReport` catches only IOError/OSError/FileNotFoundError,
none of which arise from an in-memory line list). -/
inductive PyErr
  | typeError
  | valueError
  | stopIteration
deriving DecidableEq

/-- parsetools.py, class `FileData` (fields in source order; any of them can
be Python `None`). -/
structure FileData where
  filename : Option String
  license : Option String
  md5 : Option String
  sha1 : Option String
deriving DecidableEq

/-- parsetools.py, `ParserState` for the dialect-2 assembler. -/
inductive D2State
  | READY
  | IN_FILE_SET
  | DONE
deriving DecidableEq

/-- The per-record accumulation map `tagdict`: a Python dict from tag to the
list of accumulated values, modelled as an association list. -/
def TagDict := List (String × List String)

/-- Python `tagdict.get(k)`. -/
def tagGet (d : TagDict) (k : String) : Option (List String) :=
  match d with
  | [] => none
  | (k0, vs) :: rest => if k0 == k then some vs else tagGet rest k

/-- Python `if tagdict.get(k): tagdict[k].append(v) else: tagdict[k] = [v]`
(an accumulated list is never empty, so the truthiness test is key presence). -/
def tagAdd (d : TagDict) (k v : String) : TagDict :=
  match d with
  | [] => [(k, [v])]
  | (k0, vs) :: rest =>
      if k0 == k then (k0, vs ++ [v]) :: rest else (k0, vs) :: tagAdd rest k v

/-- parsetools.py lines 143-156: one pass over the `FileChecksum` strings,
threading `(cs_sha1, cs_md5)`; a later entry of the same type overwrites. -/
def csFold (acc : Option String × Option String) :
    List String → Option String × Option String
  | [] => acc
  | c :: rest =>
      match pySplit1 c ':' with
      | some p =>
          let ty := pyStrip p.1
          let cv := pyStrip p.2
          if ty == "SHA1" then csFold (some cv, acc.2) rest
          else if ty == "MD5" then csFold (acc.1, some cv) rest
          else csFold acc rest
      | none => csFold acc rest

/-- The value a single `FileChecksum` string contributes for checksum type
`ty`: parse `TYPE: value` on the first colon and keep it when TYPE is `ty`. -/
def csExtract (ty c : String) : Option String :=
  match pySplit1 c ':' with
  | some p => if pyStrip p.1 == ty then some (pyStrip p.2) else none
  | none => none

/-- The LAST accumulated checksum value of type `ty` in the list (later
entries shadow earlier ones), or `none` when the type never occurs. -/
def lastCk (ty : String) : List String → Option String
  | [] => none
  | c :: rest => (lastCk ty rest).or (csExtract ty c)

/-- parsetools.py lines 124-169: close out the current record from the
accumulated `tagdict`.  When no `FileChecksum` tag was accumulated,
`tagdict.get("FileChecksum")` is `None` and `for checksum_str in checksums`
raises `TypeError`, which no handler in the function catches. -/
def closeRecord (td : TagDict) : Except PyErr FileData :=
  let filename :=
    match tagGet td "FileName" with
    | some l => if l == [] then none else some (pyJoin ";" l)
    | none => none
  let lic :=
    match tagGet td "LicenseConcluded" with
    | some l => if l == [] then none else some (pyJoin ";" l)
    | none => none
  match tagGet td "FileChecksum" with
  | none => .error .typeError
  | some cs =>
      let p := csFold (none, none) cs
      .ok { filename := filename, license := lic, md5 := p.2, sha1 := p.1 }

/-- Configuration of the dialect-2 parsing loop between two input lines.
`mode = some (k, v)` models the inner `while not found_end_tag` lookahead of
parsetools.py lines 103-112, which keeps calling `next(f)` on the shared
line iterator: the fold below consumes the subsequent lines in that mode,
which is observably the same as the nested loop over one iterator. -/
structure D2Parser where
  state : D2State
  tagdict : TagDict
  fds : List FileData
  mode : Option (String × String)

/-- The parser configuration at the top of `parseFossologySPDXReport`. -/
def initD2 : D2Parser := { state := .READY, tagdict := [], fds := [], mode := none }

/-- The fixed dialect-2 terminator line (`##` and 25 dashes). -/
def d2Terminator : String := "##-------------------------"

/-- One step of parsetools.py's `for line in f` loop (lines 65-174).  A raised
exception (`TypeError` while closing a record) aborts the remaining
iterations, hence the `Except` threading; after the terminator's `break` the
`DONE` state ignores every remaining line. -/
def d2Step : Except PyErr D2Parser → String → Except PyErr D2Parser
  | .error e, _ => .error e
  | .ok P, rawline =>
      match P.mode with
      | some kv =>
          -- inside the `<text>` lookahead: nextline = next(f).strip()
          let nl := pyStrip rawline
          let v := kv.2 ++ nl
          if pyEndsWith nl "</text>" then
            .ok { P with tagdict := tagAdd P.tagdict kv.1 v, mode := none }
          else
            .ok { P with mode := some (kv.1, v) }
      | none =>
          let line := pyStrip rawline
          match P.state with
          | .DONE => .ok P
          | .READY =>
              if line == "##File" then .ok { P with state := .IN_FILE_SET }
              else .ok P
          | .IN_FILE_SET =>
              if line == "" then .ok P
              else if line == "##File" then
                match closeRecord P.tagdict with
                | .error e => .error e
                | .ok fd => .ok { P with fds := P.fds ++ [fd], tagdict := [] }
              else if line == d2Terminator then
                match closeRecord P.tagdict with
                | .error e => .error e
                | .ok fd =>
                    .ok { P with fds := P.fds ++ [fd], tagdict := [], state := .DONE }
              else
                match pySplit1 line ':' with
                | some p =>
                    let k := pyStrip p.1
                    let v := pyStrip p.2
                    if pyStartsWith v "<text>" && !pyEndsWith v "</text>" then
                      .ok { P with mode := some (k, v) }
                    else
                      .ok { P with tagdict := tagAdd P.tagdict k v }
                | none => .ok P

/-- parsetools.py, `parseFossologySPDXReport`, on the report's line list.
If the input is exhausted while the `<text>` lookahead is still scanning,
the pending `next(f)` raises `StopIteration`, which the function's
`except (IOError, OSError, FileNotFoundError)` clause does not catch. -/
def parseFossologySPDXReport (lines : List String) : Except PyErr (List FileData) :=
  match lines.foldl d2Step (.ok initD2) with
  | .error e => .error e
  | .ok P =>
      match P.mode with
      | some _ => .error .stopIteration
      | none => .ok P.fds

/-! ### Prefix normalizer: parsetools.py, removePrefixes -/

/-- Longest common prefix of two segment lists; equals the
`for i, c in enumerate(s1): if c != s2[i]` loop of `posixpath.commonpath`
on its reachable inputs (where `s1` is the lexicographic minimum and `s2`
the maximum, so `s1` never overhangs `s2` without a prior mismatch). -/
def lcpSeg : List String → List String → List String
  | a :: as, b :: bs => if a == b then a :: lcpSeg as bs else []
  | _, _ => []

/-- Python `min(xs)` for lists of segment lists (first minimum on ties). -/
def pyMinL (x : List String) (xs : List (List String)) : List String :=
  xs.foldl (fun a b => if pyListLt b a then b else a) x

/-- Python `max(xs)` for lists of segment lists (first maximum on ties). -/
def pyMaxL (x : List String) (xs : List (List String)) : List String :=
  xs.foldl (fun a b => if pyListLt a b then b else a) x

/-- Python `posixpath.commonpath`: `ValueError` on an empty sequence or when
absolute and relative paths are mixed; otherwise split every path on `/`,
drop empty and `.` components, and take the common prefix of the
lexicographic extremes. -/
def commonpath : List String → Except PyErr String
  | [] => .error .valueError
  | p :: ps =>
      let isabs := pyStartsWith p "/"
      if ps.all (fun q => pyStartsWith q "/" == isabs) then
        let f := fun q => (pySplitAll q '/').filter (fun c => !(c == "") && !(c == "."))
        let s1 := pyMinL (f p) (ps.map f)
        let s2 := pyMaxL (f p) (ps.map f)
        .ok ((if isabs then "/" else "") ++ pyJoin "/" (lcpSeg s1 s2))
      else .error .valueError

/-- Python `fd.filename = fd.filename[len(prefix):]` for one record. -/
def stripLen (n : Nat) (fd : FileData) : FileData :=
  { fd with filename := fd.filename.map (fun s => pyDrop s n) }

/-- All filenames, failing like `os.fspath(None)` does when one is `None`. -/
def allSome : List (Option String) → Option (List String)
  | [] => some []
  | none :: _ => none
  | some s :: rest => (allSome rest).map (fun l => s :: l)

/-- parsetools.py, `removePrefixes`.  The source guard
`if paths != None and paths != ''` compares the LIST itself against `None`
and `''`, which is true for every list, so the strip is unconditional;
`os.path.commonpath` raises before the guard on an empty list. -/
def removePrefixes (fds : List FileData) : Except PyErr (String × List FileData) :=
  match allSome (fds.map FileData.filename) with
  | none => .error .typeError
  | some paths =>
      match commonpath paths with
      | .error e => .error e
      | .ok pfx => .ok (pfx, fds.map (stripLen pfx.length))

/-! ### Dialect-1 record assembler (spec-modelled) -/

/-- Modelled from the spec: the dialect-1 `FileRecord` shape of spec section 3
("filename, license, sha1, md5, sha256 — all strings, default empty").  The
assembler that builds it, `parseSPDXReport`, is imported by mainshell.py from
parsetools but its definition is missing from the sources. -/
structure FileRecord1 where
  filename : String := ""
  license : String := ""
  sha1 : String := ""
  md5 : String := ""
  sha256 : String := ""
deriving DecidableEq

/-- Modelled from the spec: spec section 4.2's handling of one non-`FileName`
pair against the open record — `LicenseConcluded` sets `license`;
`FileChecksum` splits its value on the first `:`, trims both parts and
dispatches SHA1/MD5/SHA256, skipping a malformed or unknown entry; every
other tag is ignored. -/
def applyTagD1 (r : FileRecord1) (tv : String × String) : FileRecord1 :=
  if tv.1 == "LicenseConcluded" then { r with license := tv.2 }
  else if tv.1 == "FileChecksum" then
    match pySplit1 tv.2 ':' with
    | none => r
    | some p =>
        let ty := pyStrip p.1
        let v := pyStrip p.2
        if ty == "SHA1" then { r with sha1 := v }
        else if ty == "MD5" then { r with md5 := v }
        else if ty == "SHA256" then { r with sha256 := v }
        else r
  else r

/-- Modelled from the spec: spec section 4.2's fold over the ordered pair
list — a `FileName` pair closes the open record (if any) into the result
list and opens a fresh one with `filename` set; any other pair updates the
open record when one exists and is dropped otherwise; at the end of the
stream the open record (if any) is appended. -/
def assembleD1Go (openR : Option FileRecord1) (acc : List FileRecord1) :
    List (String × String) → List FileRecord1
  | [] =>
      match openR with
      | some r => acc ++ [r]
      | none => acc
  | (t, v) :: rest =>
      if t == "FileName" then
        assembleD1Go (some { filename := v })
          (match openR with
           | some r => acc ++ [r]
           | none => acc) rest
      else
        match openR with
        | some r => assembleD1Go (some (applyTagD1 r (t, v))) acc rest
        | none => assembleD1Go none acc rest

/-- Modelled from the spec: the dialect-1 record assembler of spec
section 4.2, over the tokenizer's ordered pair list. -/
def assembleD1 (tvs : List (String × String)) : List FileRecord1 :=
  assembleD1Go none [] tvs

/-- Feed every line to a fresh tokenizer and ask for the final list
(tvFileLoader.py driven as spec section 4.1 prescribes). -/
def tvListOfLines (lines : List String) : Option (List (String × String)) :=
  (getFinalTVList (lines.foldl parseNextLine initLoader)).1

/-- Modelled from the spec: the dialect-1 parse entry point
`parseSPDXReport` (imported by mainshell.py from parsetools, definition
missing from the sources): tokenize the report's lines with the
tvFileLoader and assemble the pair list; a tokenizer failure signal yields
an empty result per spec sections 4.2 and 7. -/
def parseSPDXReport (lines : List String) : List FileRecord1 :=
  match tvListOfLines lines with
  | none => []
  | some tvs => assembleD1 tvs

/-- The pair list a dialect-1 block contributes: its `FileName` pair
followed by the block's other pairs. -/
def d1Block (b : String × List (String × String)) : List (String × String) :=
  ("FileName", b.1) :: b.2

/-- The record a dialect-1 block must produce: start from the default
record with `filename` set, then fold the block's remaining pairs. -/
def d1Record (b : String × List (String × String)) : FileRecord1 :=
  b.2.foldl applyTagD1 { filename := b.1 }

/-! ### Helper lemmas about the tokenizer -/

/-- In ERROR state a `parseNextLine` call only advances the line counter. -/
theorem parseNextLine_in_error (L : TVFileLoader) (l : String)
    (h : L.loaderState = .ERROR) :
    parseNextLine L l = { L with currentLineNum := L.currentLineNum + 1 } := by
  obtain ⟨st, tv, n, t, v⟩ := L
  subst h
  rfl

/-- Feeding any line sequence from ERROR keeps the state and the pair list. -/
theorem foldl_parseNextLine_error (lines : List String) (L : TVFileLoader)
    (h : L.loaderState = .ERROR) :
    (List.foldl parseNextLine L lines).loaderState = .ERROR ∧
    (List.foldl parseNextLine L lines).tvList = L.tvList := by
  induction lines generalizing L with
  | nil => exact ⟨h, rfl⟩
  | cons l ls ih =>
      rw [List.foldl_cons, parseNextLine_in_error L l h]
      exact ih _ h

/-- A non-blank, non-comment line without a colon sends READY to ERROR. -/
theorem parseFromReady_no_colon (L : TVFileLoader) (line : String)
    (h1 : pyStrip line ≠ "")
    (h2 : pyStartsWith (pyStrip line) "#" = false)
    (h3 : pyFindChar ':' (pyStrip line) = none) :
    parseFromReady L line = { L with loaderState := .ERROR } := by
  have h1b : (pyStrip line == "") = false := beq_eq_false_iff_ne.mpr h1
  simp [parseFromReady, h1b, h2, h3]

/-- In READY state, a line whose colon sits at index `i` of the stripped
line records `line[0:i]` — untrimmed — as the tag, either in the buffered
`currentTag` (multi-line case) or as the tag of the emitted pair. -/
theorem parseFromReady_tag (L : TVFileLoader) (line : String) (i : Nat)
    (h2 : pyStartsWith (pyStrip line) "#" = false)
    (h3 : pyFindChar ':' (pyStrip line) = some i) :
    ((parseFromReady L line).loaderState = .MIDTEXT ∧
      (parseFromReady L line).currentTag = pyTake (pyStrip line) i) ∨
    ((parseFromReady L line).loaderState = .READY ∧
      ∃ v, (parseFromReady L line).tvList =
        L.tvList ++ [(pyTake (pyStrip line) i, v)]) := by
  have h1 : (pyStrip line == "") = false := by
    cases hE : pyStrip line == "" with
    | false => rfl
    | true =>
        rw [eq_of_beq hE] at h3
        exact Option.noConfusion ((by rfl : pyFindChar ':' "" = none).symm.trans h3)
  rcases hf : pyFindSub "<text>" (pyStrip (pyDrop (pyStrip line) (i + 1))) with _ | j
  · refine Or.inr ⟨?_, pyStrip (pyDrop (pyStrip line) (i + 1)), ?_⟩ <;>
      simp [parseFromReady, h1, h2, h3, hf]
  · rcases hg : pyFindSub "</text>"
        (pyDrop (pyStrip (pyDrop (pyStrip line) (i + 1))) (j + 6)) with _ | k
    · refine Or.inl ⟨?_, ?_⟩ <;> simp [parseFromReady, h1, h2, h3, hf, hg]
    · refine Or.inr ⟨?_,
        pyTake (pyDrop (pyStrip (pyDrop (pyStrip line) (i + 1))) (j + 6)) k, ?_⟩ <;>
        simp [parseFromReady, h1, h2, h3, hf, hg]

/-! ### Claims about the dialect-1 tokenizer -/

/-- Claim C6: whenever a non-blank, non-comment line without a colon is fed
to the tokenizer in READY state, it transitions to the terminal ERROR state
and `getFinalTVList` returns the failure signal (`none`), no matter how
well-formed every subsequent line is. -/
theorem C6_no_colon_forces_failure (L : TVFileLoader) (line : String)
    (rest : List String)
    (hst : L.loaderState = .READY)
    (h1 : pyStrip line ≠ "")
    (h2 : pyStartsWith (pyStrip line) "#" = false)
    (h3 : pyFindChar ':' (pyStrip line) = none) :
    (getFinalTVList (List.foldl parseNextLine (parseNextLine L line) rest)).1
      = none := by
  have hE : (parseNextLine L line).loaderState = .ERROR := by
    obtain ⟨st, tv, n, t, v⟩ := L
    subst hst
    show (parseFromReady ⟨.READY, tv, n + 1, t, v⟩ line).loaderState = .ERROR
    rw [parseFromReady_no_colon _ line h1 h2 h3]
  obtain ⟨hE2, -⟩ := foldl_parseNextLine_error rest _ hE
  simp [getFinalTVList, hE2]

/-- Witness for C6 at a concrete malformed input followed by a
well-formed line. -/
theorem C6_no_colon_forces_failure_witness :
    (getFinalTVList
      (List.foldl parseNextLine (parseNextLine initLoader "bad line")
        ["Tag: v"])).1 = none :=
  C6_no_colon_forces_failure initLoader "bad line" ["Tag: v"] rfl
    (by decide) (by decide) (by decide)

/-- Claim C7: from any READY tokenizer, the two lines
`Tag: <text>line1` and `line2</text>` emit exactly one new pair
`("Tag", "line1\nline2")` — the fragments joined by a single literal
newline, the markers stripped — and the tokenizer is back in READY. -/
theorem C7_multiline_text_pair (L : TVFileLoader)
    (hst : L.loaderState = .READY) :
    (parseNextLine (parseNextLine L "Tag: <text>line1") "line2</text>").loaderState
        = .READY ∧
    (parseNextLine (parseNextLine L "Tag: <text>line1") "line2</text>").tvList
        = L.tvList ++ [("Tag", "line1\nline2")] := by
  obtain ⟨st, tv, n, t, v⟩ := L
  subst hst
  exact ⟨rfl, rfl⟩

/-- Witness for C7 on the fresh tokenizer. -/
theorem C7_multiline_text_pair_witness :
    (parseNextLine (parseNextLine initLoader "Tag: <text>line1") "line2</text>").loaderState
        = .READY ∧
    (parseNextLine (parseNextLine initLoader "Tag: <text>line1") "line2</text>").tvList
        = initLoader.tvList ++ [("Tag", "line1\nline2")] :=
  C7_multiline_text_pair initLoader rfl

/-- Claim C9: ERROR is terminal — from an ERROR loader, any sequence of
`parseNextLine` calls leaves the state ERROR and appends no pair. -/
theorem C9_error_state_terminal (L : TVFileLoader) (lines : List String)
    (h : L.loaderState = .ERROR) :
    (List.foldl parseNextLine L lines).loaderState = .ERROR ∧
    (List.foldl parseNextLine L lines).tvList = L.tvList :=
  foldl_parseNextLine_error lines L h

/-- Witness for C9 on an ERROR loader fed two well-formed lines. -/
theorem C9_error_state_terminal_witness :
    (List.foldl parseNextLine { initLoader with loaderState := .ERROR }
        ["Tag: v", "Other: w"]).loaderState = .ERROR ∧
    (List.foldl parseNextLine { initLoader with loaderState := .ERROR }
        ["Tag: v", "Other: w"]).tvList =
      ({ initLoader with loaderState := .ERROR } : TVFileLoader).tvList :=
  C9_error_state_terminal _ _ rfl

/-- Counterexample to claim C8 as stated: in READY state the line
`Tag : value` (whitespace between tag and colon) yields the tag
`"Tag "` WITH a trailing space — the code slices the stripped line at the
first colon without trimming the slice. -/
theorem C8_counterexample :
    (parseNextLine initLoader "Tag : value").tvList = [("Tag ", "value")] ∧
    ("Tag " : String) ≠ "Tag" :=
  ⟨rfl, by decide⟩

/-- Claim C8 (amended): in READY state, for every line whose stripped form
has its first colon at index `i`, the tag of the emitted or buffered pair
is `stripped[0:i]` — everything before the first colon of the
whitespace-stripped line, with no further trimming, so interior whitespace
before the colon is retained. -/
theorem C8_tag_untrimmed_before_colon (L : TVFileLoader) (line : String)
    (i : Nat)
    (hst : L.loaderState = .READY)
    (h2 : pyStartsWith (pyStrip line) "#" = false)
    (h3 : pyFindChar ':' (pyStrip line) = some i) :
    ((parseNextLine L line).loaderState = .MIDTEXT ∧
      (parseNextLine L line).currentTag = pyTake (pyStrip line) i) ∨
    ((parseNextLine L line).loaderState = .READY ∧
      ∃ v, (parseNextLine L line).tvList =
        L.tvList ++ [(pyTake (pyStrip line) i, v)]) := by
  obtain ⟨st, tv, n, t, v⟩ := L
  subst hst
  exact parseFromReady_tag ⟨.READY, tv, n + 1, t, v⟩ line i h2 h3

/-- Witness for the amended C8 at the line `Tag : value` (colon index 4). -/
theorem C8_tag_untrimmed_before_colon_witness :
    ((parseNextLine initLoader "Tag : value").loaderState = .MIDTEXT ∧
      (parseNextLine initLoader "Tag : value").currentTag
        = pyTake (pyStrip "Tag : value") 4) ∨
    ((parseNextLine initLoader "Tag : value").loaderState = .READY ∧
      ∃ v, (parseNextLine initLoader "Tag : value").tvList =
        initLoader.tvList ++ [(pyTake (pyStrip "Tag : value") 4, v)]) :=
  C8_tag_untrimmed_before_colon initLoader "Tag : value" 4 rfl
    (by decide) (by decide)

/-! ### Helper lemmas about the dialect-2 assembler -/

/-- The checksum pass is a last-wins scan: threading any starting pair
through `csFold` yields, per type, the last accumulated value of that type
(falling back to the start value when the type never occurs). -/
theorem csFold_eq_lastCk (cs : List String) (s m : Option String) :
    csFold (s, m) cs = ((lastCk "SHA1" cs).or s, (lastCk "MD5" cs).or m) := by
  induction cs generalizing s m with
  | nil => simp [csFold, lastCk]
  | cons c rest ih =>
      simp only [csFold, lastCk, csExtract]
      rcases hsp : pySplit1 c ':' with _ | p
      · rw [ih]
        simp
      · by_cases hA : pyStrip p.1 = "SHA1"
        · simp only [hA, beq_self_eq_true, if_true, ih, reduceIte]
          cases lastCk "SHA1" rest <;> cases lastCk "MD5" rest <;>
            simp [Option.or]
        · have hA' : (pyStrip p.1 == "SHA1") = false := beq_eq_false_iff_ne.mpr hA
          by_cases hB : pyStrip p.1 = "MD5"
          · simp only [hA', hB, beq_self_eq_true, if_true, if_false,
              Bool.false_eq_true, ih, reduceIte]
            cases lastCk "SHA1" rest <;> cases lastCk "MD5" rest <;>
              simp [Option.or]
          · have hB' : (pyStrip p.1 == "MD5") = false := beq_eq_false_iff_ne.mpr hB
            simp only [hA', hB', Bool.false_eq_true, if_false, ih, reduceIte]
            cases lastCk "SHA1" rest <;> cases lastCk "MD5" rest <;>
              simp [Option.or]

/-- Closing a record whose `tagdict` holds checksum strings `cs` succeeds
and records the LAST SHA1 and LAST MD5 occurrences. -/
theorem closeRecord_last (td : TagDict) (cs : List String)
    (hcs : tagGet td "FileChecksum" = some cs) :
    ∃ fd, closeRecord td = .ok fd ∧
      fd.sha1 = lastCk "SHA1" cs ∧ fd.md5 = lastCk "MD5" cs := by
  unfold closeRecord
  rw [hcs]
  refine ⟨_, rfl, ?_, ?_⟩
  · show (csFold (none, none) cs).1 = lastCk "SHA1" cs
    rw [csFold_eq_lastCk]
    cases lastCk "SHA1" cs <;> rfl
  · show (csFold (none, none) cs).2 = lastCk "MD5" cs
    rw [csFold_eq_lastCk]
    cases lastCk "MD5" cs <;> rfl

/-! ### Claims about the dialect-2 assembler -/

/-- Counterexample to claim C1 as stated: a record accumulating the two
checksum lines `SHA1: aaa` then `SHA1: bbb` is closed with
`sha1 = "bbb"` — the LAST occurrence, not the first. -/
theorem C1_counterexample :
    parseFossologySPDXReport
      ["##File", "FileName: f", "FileChecksum: SHA1: aaa",
       "FileChecksum: SHA1: bbb", "##-------------------------"]
      = .ok [{ filename := some "f", license := none, md5 := none,
               sha1 := some "bbb" }] ∧
    (some "bbb" : Option String) ≠ some "aaa" :=
  ⟨rfl, by decide⟩

/-- Claim C1 (amended): whenever a record is closed (on a `##File` boundary
or the terminator) with an accumulated `FileChecksum` list `cs`, the
constructed record's sha1 and md5 are the LAST accumulated entries of type
SHA1 and MD5 respectively — a later entry of the same type overwrites an
earlier one. -/
theorem C1_last_checksum_wins (P : D2Parser) (raw : String) (cs : List String)
    (hmode : P.mode = none) (hst : P.state = .IN_FILE_SET)
    (hline : pyStrip raw = "##File" ∨ pyStrip raw = d2Terminator)
    (hcs : tagGet P.tagdict "FileChecksum" = some cs) :
    ∃ fd P', d2Step (.ok P) raw = .ok P' ∧ P'.fds = P.fds ++ [fd] ∧
      fd.sha1 = lastCk "SHA1" cs ∧ fd.md5 = lastCk "MD5" cs := by
  obtain ⟨fd, hfd, h1, h5⟩ := closeRecord_last P.tagdict cs hcs
  rcases hline with h | h
  · refine ⟨fd, { P with fds := P.fds ++ [fd], tagdict := [] }, ?_, rfl, h1, h5⟩
    simp [d2Step, hmode, hst, h, hfd]
  · refine ⟨fd, { P with fds := P.fds ++ [fd], tagdict := [], state := .DONE },
      ?_, rfl, h1, h5⟩
    simp [d2Step, hmode, hst, h, hfd, d2Terminator]

/-- A concrete parser configuration holding two SHA1 checksum entries. -/
def c1WitnessP : D2Parser :=
  { state := .IN_FILE_SET,
    tagdict := [("FileChecksum", ["SHA1: aaa", "SHA1: bbb"])],
    fds := [], mode := none }

/-- Witness for the amended C1: a tagdict holding two SHA1 entries, closed
by a `##File` boundary line. -/
theorem C1_last_checksum_wins_witness :
    ∃ fd P', d2Step (.ok c1WitnessP) "##File" = .ok P' ∧
      P'.fds = c1WitnessP.fds ++ [fd] ∧
      fd.sha1 = lastCk "SHA1" ["SHA1: aaa", "SHA1: bbb"] ∧
      fd.md5 = lastCk "MD5" ["SHA1: aaa", "SHA1: bbb"] :=
  C1_last_checksum_wins c1WitnessP "##File" _ rfl rfl (Or.inl (by decide)) rfl

/-- Claim C2, evaluated at the failing input: a record between `##File` and
the terminator that accumulated no `FileChecksum` tag at all does NOT close
into a record with null checksums — iterating over
`tagdict.get("FileChecksum")` (Python `None`) raises `TypeError`, which the
I/O-only exception handler does not catch, so the parse aborts. -/
theorem C2_missing_checksum_crash :
    parseFossologySPDXReport ["##File", "FileName: a", "##-------------------------"]
      = .error .typeError :=
  rfl

/-- While the `<text>` lookahead is scanning, any line not ending with the
closing marker keeps the lookahead scanning; a whole suffix of such lines
leaves the parser in lookahead mode at end of input. -/
theorem foldl_d2Step_midtext (rest : List String) (P : D2Parser) (k v : String)
    (hm : P.mode = some (k, v))
    (hrest : ∀ l ∈ rest, pyEndsWith (pyStrip l) "</text>" = false) :
    ∃ P' k' v', List.foldl d2Step (.ok P) rest = .ok P' ∧
      P'.mode = some (k', v') := by
  induction rest generalizing P k v with
  | nil => exact ⟨P, k, v, rfl, hm⟩
  | cons l ls ih =>
      have hl := hrest l (List.mem_cons_self l ls)
      have hstep : d2Step (.ok P) l
          = .ok { P with mode := some (k, v ++ pyStrip l) } := by
        simp [d2Step, hm, hl]
      rw [List.foldl_cons, hstep]
      exact ih _ k _ rfl (fun x hx => hrest x (List.mem_cons_of_mem _ hx))

/-- Claim C10: if the input ends while the dialect-2 `<text>` lookahead is
still consuming lines in search of one ending with `</text>`, the pending
`next(f)` raises an uncaught `StopIteration`: `parseFossologySPDXReport`
yields the error, not a record list, so every record accumulated in that
invocation is discarded. -/
theorem C10_unterminated_text_discards_records (pre rest : List String)
    (P : D2Parser) (k v : String)
    (h1 : List.foldl d2Step (.ok initD2) pre = .ok P)
    (h2 : P.mode = some (k, v))
    (h3 : ∀ l ∈ rest, pyEndsWith (pyStrip l) "</text>" = false) :
    parseFossologySPDXReport (pre ++ rest) = .error .stopIteration := by
  obtain ⟨P', k', v', hfold, hm⟩ := foldl_d2Step_midtext rest P k v h2 h3
  unfold parseFossologySPDXReport
  rw [List.foldl_append, h1, hfold]
  simp [hm]

/-- The concrete parser configuration reached after an unterminated
`Tag: <text>a` line. -/
def c10WitnessP : D2Parser :=
  { state := .IN_FILE_SET, tagdict := [], fds := [],
    mode := some ("Tag", "<text>a") }

/-- Witness for C10: a report whose last tag opens a `<text>` block that no
remaining line closes. -/
theorem C10_unterminated_text_discards_records_witness :
    parseFossologySPDXReport (["##File", "Tag: <text>a"] ++ ["xyz"])
      = .error .stopIteration :=
  C10_unterminated_text_discards_records ["##File", "Tag: <text>a"] ["xyz"]
    c10WitnessP "Tag" "<text>a" rfl rfl (by decide)

/-! ### Claims about the prefix normalizer -/

/-- Claim C4, evaluated at the failing input: on an empty record list the
code does not return an empty prefix — `os.path.commonpath([])` raises
`ValueError`, which `removePrefixes` does not catch. -/
theorem C4_empty_list_raises :
    removePrefixes [] = .error .valueError :=
  rfl

/-- Two records sharing the one-segment common prefix `a`. -/
def c3fds0 : List FileData :=
  [⟨some "a/x", none, none, none⟩, ⟨some "a/y", none, none, none⟩]

/-- The first run's output: the prefix is stripped by character count, so a
leading path separator survives in every filename. -/
def c3fds1 : List FileData :=
  [⟨some "/x", none, none, none⟩, ⟨some "/y", none, none, none⟩]

/-- The second run's output: the leading separator is stripped again. -/
def c3fds2 : List FileData :=
  [⟨some "x", none, none, none⟩, ⟨some "y", none, none, none⟩]

/-- Counterexample to claim C3 as stated: on the two filenames `a/x`, `a/y`
(non-empty, sharing the common path segment `a`), the first run strips `a`
but leaves `/x`, `/y`; the second run on that already-stripped output
returns the NON-empty prefix `/` and changes every filename. -/
theorem C3_counterexample :
    removePrefixes c3fds0 = .ok ("a", c3fds1) ∧
    removePrefixes c3fds1 = .ok ("/", c3fds2) ∧
    ("/" : String) ≠ "" ∧ c3fds2 ≠ c3fds1 :=
  ⟨rfl, rfl, by decide, by decide⟩

/-- Evaluating `allSome` on filenames that are all present and absolute. -/
theorem allSome_filenames (l : List FileData)
    (hl : ∀ fd ∈ l, ∃ s, fd.filename = some s ∧ pyStartsWith s "/" = true) :
    ∃ paths, allSome (l.map FileData.filename) = some paths ∧
      paths.length = l.length ∧ ∀ s ∈ paths, pyStartsWith s "/" = true := by
  induction l with
  | nil => exact ⟨[], rfl, rfl, by simp⟩
  | cons fd rest ih =>
      obtain ⟨s, hs, hsw⟩ := hl fd (List.mem_cons_self fd rest)
      obtain ⟨ps, hps, hlen, hall⟩ :=
        ih (fun x hx => hl x (List.mem_cons_of_mem _ hx))
      refine ⟨s :: ps, ?_, by simp [hlen], ?_⟩
      · show allSome (fd.filename :: rest.map FileData.filename) = some (s :: ps)
        rw [hs]
        show (allSome (rest.map FileData.filename)).map _ = _
        rw [hps]
        rfl
      · intro x hx
        rcases List.mem_cons.mp hx with h | h
        · exact h ▸ hsw
        · exact hall x h

/-- Evaluating `commonpath` on a non-empty all-absolute path list succeeds, returning
a string beginning with the separator. -/
theorem commonpath_absolute (p : String) (ps : List String)
    (habs : ∀ s ∈ p :: ps, pyStartsWith s "/" = true) :
    ∃ q, commonpath (p :: ps) = .ok ("/" ++ q) := by
  have hp := habs p (List.mem_cons_self p ps)
  have hall : (ps.all fun qq => pyStartsWith qq "/" == true) = true := by
    rw [List.all_eq_true]
    intro x hx
    rw [habs x (List.mem_cons_of_mem _ hx)]
    rfl
  simp only [commonpath]
  rw [hp, hall, if_pos rfl]
  exact ⟨_, rfl⟩

/-- A string of the form `"/" ++ q` starts with the separator. -/
theorem startsWith_slash_append (q : String) :
    pyStartsWith ("/" ++ q) "/" = true := by
  show List.isPrefixOf _ _ = true
  rw [String.data_append]
  simp [List.isPrefixOf]

/-- A string of the form `"/" ++ q` is non-empty. -/
theorem slash_append_ne_empty (q : String) : ("/" ++ q : String) ≠ "" := by
  intro h
  have := congrArg String.data h
  rw [String.data_append] at this
  exact List.noConfusion this

/-- Claim C3 (amended): running `removePrefixes` on its own already-stripped
output is NOT a no-op.  For every non-empty record list whose filenames all
begin with the path separator — which is exactly the shape of the first
run's output whenever the filenames properly extended the common prefix —
the (second) run returns a prefix that begins with `/`, hence is non-empty,
and changes every filename (it strips at least the surviving separator). -/
theorem C3_second_run_changes_filenames (fds : List FileData)
    (hne : fds ≠ [])
    (habs : ∀ fd ∈ fds, ∃ s, fd.filename = some s ∧ pyStartsWith s "/" = true) :
    ∃ p, removePrefixes fds = .ok (p, fds.map (stripLen p.length)) ∧
      pyStartsWith p "/" = true ∧ p ≠ "" ∧
      ∀ fd ∈ fds, (stripLen p.length fd).filename ≠ fd.filename := by
  obtain ⟨paths, hsome, hlenp, hallp⟩ := allSome_filenames fds habs
  cases paths with
  | nil =>
      cases fds with
      | nil => exact absurd rfl hne
      | cons a b => exact absurd hlenp (by simp)
  | cons p0 ps =>
      obtain ⟨q, hcp⟩ := commonpath_absolute p0 ps hallp
      refine ⟨"/" ++ q, ?_, startsWith_slash_append q, slash_append_ne_empty q, ?_⟩
      · simp [removePrefixes, hsome, hcp]
      · intro fd hfd
        obtain ⟨s, hs, hsw⟩ := habs fd hfd
        have hslen : 1 ≤ s.data.length := by
          have hpref : [(Char.ofNat 47)] <+: s.data := by
            have : List.isPrefixOf "/".data s.data = true := hsw
            exact List.isPrefixOf_iff_prefix.mp this
          have := hpref.length_le
          simpa using this
        have hn : 1 ≤ ("/" ++ q : String).length := by
          have : ("/" ++ q : String).data = "/".data ++ q.data := String.data_append _ _
          show 1 ≤ ("/" ++ q : String).data.length
          rw [this]
          simp
        show (stripLen ("/" ++ q : String).length fd).filename ≠ fd.filename
        rw [show (stripLen ("/" ++ q : String).length fd).filename
              = fd.filename.map (fun s => pyDrop s ("/" ++ q : String).length) from rfl,
            hs]
        intro hcontra
        have heq : pyDrop s ("/" ++ q : String).length = s :=
          Option.some.inj hcontra
        have hlen2 := congrArg (fun t => t.data.length) heq
        simp only [pyDrop, List.length_drop] at hlen2
        omega

/-- Witness for the amended C3: the second run on the concrete
already-stripped output `/x`, `/y`. -/
theorem C3_second_run_changes_filenames_witness :
    ∃ p, removePrefixes c3fds1 = .ok (p, c3fds1.map (stripLen p.length)) ∧
      pyStartsWith p "/" = true ∧ p ≠ "" ∧
      ∀ fd ∈ c3fds1, (stripLen p.length fd).filename ≠ fd.filename :=
  C3_second_run_changes_filenames c3fds1 (by decide)
    (by
      intro fd hfd
      rcases List.mem_cons.mp hfd with h | h
      · exact ⟨"/x", by rw [h], by decide⟩
      · rcases List.mem_cons.mp h with h2 | h2
        · exact ⟨"/y", by rw [h2], by decide⟩
        · exact absurd h2 (List.not_mem_nil fd))

/-! ### Helper lemmas about the dialect-1 assembler -/

/-- The accumulator of `assembleD1Go` is a pure prefix of the output. -/
theorem assembleD1Go_acc (ls : List (String × String)) (openR : Option FileRecord1)
    (acc : List FileRecord1) :
    assembleD1Go openR acc ls = acc ++ assembleD1Go openR [] ls := by
  induction ls generalizing openR acc with
  | nil => cases openR <;> simp [assembleD1Go]
  | cons tv rest ih =>
      obtain ⟨t, v⟩ := tv
      cases ht : t == "FileName" with
      | true =>
          cases openR with
          | none =>
              simp only [assembleD1Go, ht, if_true]
              exact ih _ acc
          | some r =>
              simp only [assembleD1Go, ht, if_true, List.nil_append]
              rw [ih (some { filename := v }) (acc ++ [r]),
                  ih (some { filename := v }) [r], List.append_assoc]
      | false =>
          cases openR with
          | none =>
              simp only [assembleD1Go, ht, Bool.false_eq_true, if_false]
              exact ih _ acc
          | some r =>
              simp only [assembleD1Go, ht, Bool.false_eq_true, if_false]
              exact ih _ acc

/-- Pairs before the first `FileName` are skipped when no record is open. -/
theorem assembleD1Go_skip (pre ls : List (String × String))
    (hpre : ∀ tv ∈ pre, tv.1 ≠ "FileName") (acc : List FileRecord1) :
    assembleD1Go none acc (pre ++ ls) = assembleD1Go none acc ls := by
  induction pre with
  | nil => rfl
  | cons tv rest ih =>
      obtain ⟨t, v⟩ := tv
      have ht : (t == "FileName") = false :=
        beq_eq_false_iff_ne.mpr (hpre (t, v) (List.mem_cons_self _ _))
      simp only [List.cons_append, assembleD1Go, ht, Bool.false_eq_true, if_false]
      exact ih (fun x hx => hpre x (List.mem_cons_of_mem _ hx))

/-- Feeding a block's non-`FileName` pairs folds them into the open record. -/
theorem assembleD1Go_block (b2 : List (String × String)) (r : FileRecord1)
    (acc : List FileRecord1) (ls : List (String × String))
    (hb : ∀ tv ∈ b2, tv.1 ≠ "FileName") :
    assembleD1Go (some r) acc (b2 ++ ls)
      = assembleD1Go (some (b2.foldl applyTagD1 r)) acc ls := by
  induction b2 generalizing r with
  | nil => rfl
  | cons tv rest ih =>
      obtain ⟨t, v⟩ := tv
      have ht : (t == "FileName") = false :=
        beq_eq_false_iff_ne.mpr (hb (t, v) (List.mem_cons_self _ _))
      simp only [List.cons_append, assembleD1Go, ht, Bool.false_eq_true, if_false,
        List.foldl_cons]
      exact ih (applyTagD1 r (t, v)) (fun x hx => hb x (List.mem_cons_of_mem _ hx))

/-- With a record open, a sequence of dialect-1 blocks closes it and then
produces exactly one record per block, in order. -/
theorem assembleD1Go_blocks (blocks : List (String × List (String × String)))
    (r : FileRecord1) (acc : List FileRecord1)
    (hbl : ∀ b ∈ blocks, ∀ tv ∈ b.2, tv.1 ≠ "FileName") :
    assembleD1Go (some r) acc ((blocks.map d1Block).join)
      = acc ++ r :: blocks.map d1Record := by
  induction blocks generalizing r acc with
  | nil => simp [assembleD1Go]
  | cons b bs ih =>
      obtain ⟨fn, tvs⟩ := b
      simp only [List.map_cons, List.join_cons, d1Block, List.cons_append]
      have step : assembleD1Go (some r) acc
            (("FileName", fn) :: (tvs ++ (bs.map d1Block).join))
          = assembleD1Go (some { filename := fn }) (acc ++ [r])
            (tvs ++ (bs.map d1Block).join) := by
        simp [assembleD1Go]
      rw [step,
        assembleD1Go_block tvs _ _ _ (hbl (fn, tvs) (List.mem_cons_self _ _)),
        ih (tvs.foldl applyTagD1 { filename := fn }) (acc ++ [r])
          (fun x hx => hbl x (List.mem_cons_of_mem _ hx))]
      simp [d1Record]

/-! ### Claim about the dialect-1 assembler -/

/-- Claim C5: when the tokenizer yields a pair list consisting of some
non-`FileName` pairs followed by N blocks — each a `FileName` pair and then
that block's non-`FileName` pairs — `parseSPDXReport` returns exactly one
record per block, in source order, and the Kth record is obtained by
folding exactly the Kth block's pairs over the default (empty-string)
record with its `filename` set; fields no tag of the block touches keep
their empty-string default. -/
theorem C5_dialect1_blocks (lines : List String) (pre : List (String × String))
    (blocks : List (String × List (String × String)))
    (htv : tvListOfLines lines = some (pre ++ (blocks.map d1Block).join))
    (hpre : ∀ tv ∈ pre, tv.1 ≠ "FileName")
    (hbl : ∀ b ∈ blocks, ∀ tv ∈ b.2, tv.1 ≠ "FileName") :
    parseSPDXReport lines = blocks.map d1Record := by
  unfold parseSPDXReport
  rw [htv]
  show assembleD1 (pre ++ (blocks.map d1Block).join) = blocks.map d1Record
  unfold assembleD1
  rw [assembleD1Go_skip pre _ hpre]
  cases blocks with
  | nil => rfl
  | cons b bs =>
      obtain ⟨fn, tvs⟩ := b
      simp only [List.map_cons, List.join_cons, d1Block, List.cons_append]
      have step : assembleD1Go none []
            (("FileName", fn) :: (tvs ++ (bs.map d1Block).join))
          = assembleD1Go (some { filename := fn }) []
            (tvs ++ (bs.map d1Block).join) := by
        simp [assembleD1Go]
      rw [step,
        assembleD1Go_block tvs _ _ _ (hbl (fn, tvs) (List.mem_cons_self _ _)),
        assembleD1Go_blocks bs _ _ (fun x hx => hbl x (List.mem_cons_of_mem _ hx))]
      simp [d1Record]

/-- The spec's concrete dialect-1 round-trip input. -/
def c5Lines : List String :=
  ["FileName: src/a.c", "LicenseConcluded: MIT", "FileChecksum: SHA1: deadbeef",
   "FileChecksum: MD5: cafebabe", "FileName: src/b.c", "LicenseConcluded: GPL-2.0",
   "FileChecksum: SHA1: 1234abcd"]

/-- The block decomposition of the round-trip input's pair list. -/
def c5Blocks : List (String × List (String × String)) :=
  [("src/a.c",
    [("LicenseConcluded", "MIT"), ("FileChecksum", "SHA1: deadbeef"),
     ("FileChecksum", "MD5: cafebabe")]),
   ("src/b.c",
    [("LicenseConcluded", "GPL-2.0"), ("FileChecksum", "SHA1: 1234abcd")])]

/-- Witness for C5 on the spec's round-trip input (two blocks). -/
theorem C5_dialect1_blocks_witness :
    parseSPDXReport c5Lines = c5Blocks.map d1Record :=
  C5_dialect1_blocks c5Lines [] c5Blocks rfl (by decide) (by decide)
